import Mathlib

/-!
Verification development for the `awss3` bucket lifecycle component
(`awss3/s3_bucket.go`).  The Go code is shallowly embedded: every backend
call issued through the `S3Client` interface is recorded as a `CallEvent`
in a trace, and the fake backend's responses are supplied as fields of
`S3ClientModel` (responses of the two retried calls are indexed by the
attempt number, exactly as a deterministic mock would be programmed).
Go `error` values are modelled by `GoErr`; a Go panic (slice index out of
range) is modelled by `GoOutcome.panicked`.
-/

namespace AwsS3

/-- Go `error` values as far as this component inspects them:
`plain` is an error that is not an `awserr.Error`; `aws` is an
`awserr.Error` with its `Code()` and `Message()`; `batch` is a
`*s3manager.BatchError` (itself an `awserr.Error`), whose `OrigErr()`
is the `s3manager.Errors` slice, each element carrying an optional
`OrigErr` cause. -/
inductive GoErr where
  | plain (msg : String)
  | aws (code message : String)
  | batch (code message : String) (errs : List (Option GoErr))
deriving Repr

/-- The `Code()` of an `awserr.Error`, `none` when the dynamic type is not
an `awserr.Error`. -/
def GoErr.awsCode : GoErr → Option String
  | .plain _ => none
  | .aws c _ => some c
  | .batch c _ _ => some c

/-- The `Message()` of an `awserr.Error`. -/
def GoErr.awsMessage : GoErr → Option String
  | .plain _ => none
  | .aws _ m => some m
  | .batch _ m _ => some m

/-- The error-flattening pattern used repeatedly in the source:
`if awsErr, ok := err.(awserr.Error); ok { return errors.New(awsErr.Code() + ": " + awsErr.Message()) }`,
otherwise the raw error is passed through. -/
def flattenAwsError (e : GoErr) : GoErr :=
  match e with
  | .plain m => .plain m
  | .aws c m => .plain (c ++ ": " ++ m)
  | .batch c m _ => .plain (c ++ ": " ++ m)

/-- Modelled from the spec: the `BucketDetails` struct is declared outside
the file under verification; §3 of the spec lists its fields
(`BucketName`, `Region`, `ARN`, `FIPSEndpoint`, `Tags`, `Encryption`,
`Policy`, `ObjectOwnership`).  Go zero values are the defaults. -/
structure BucketDetails where
  BucketName : String := ""
  Region : String := ""
  ARN : String := ""
  FIPSEndpoint : String := ""
  Tags : List (String × String) := []
  Encryption : String := ""
  Policy : String := ""
  ObjectOwnership : String := ""
deriving Repr

/-- The `bucketPolicyStatement` struct of the source. -/
structure bucketPolicyStatement where
  Effect : String
  Principal : String
  Action : List String
  Resource : List String
deriving Repr, DecidableEq

/-- The `bucketPolicy` struct of the source. -/
structure bucketPolicy where
  Version : String
  Statement : List bucketPolicyStatement
deriving Repr, DecidableEq

/-- One backend interaction (or sleep) performed by the component, in
program order. -/
inductive CallEvent where
  | getBucketLocation
  | createBucket
  | putBucketTagging
  | putBucketEncryption
  | deletePublicAccessBlock
  | getPublicAccessBlock
  | sleep
  | putBucketPolicy (policy : String)
  | deleteBucket
  | batchDeleteObjects
deriving Repr, DecidableEq

/-- The fake backend: one response per (non-retried) call, and a response
stream indexed by attempt number for the two retried calls.  `none`
means the call returned a nil error. -/
structure S3ClientModel where
  createBucket : Except GoErr (Option String) := .ok none
  putBucketTagging : Option GoErr := none
  putBucketEncryption : Option GoErr := none
  deletePublicAccessBlock : Option GoErr := none
  getPublicAccessBlock : Nat → Option GoErr := fun _ => none
  putBucketPolicy : Nat → String → Option GoErr := fun _ _ => none
  deleteBucket : Option GoErr := none
  batchDeleteObjects : Option GoErr := none

/-- Result of a Go call that may panic. -/
inductive GoOutcome (α : Type) where
  | panicked
  | ret (a : α)
deriving Repr, DecidableEq

/-- `isNoSuchBucketError` together with the inlined
`isBatchDeleteNoBucketError`: a non-batch `awserr.Error` is classified by
`Code() == "NoSuchBucket"`; a `*s3manager.BatchError` is unwrapped — a
wrapped `s3manager.Errors` with more than one element is never a
no-such-bucket error, a single element is classified by its `OrigErr`
cause (recursively), and a nil cause is not.  Go indexes element `0` of
the wrapped slice without a length check, so an empty slice panics:
`none` models that panic. -/
def isNoSuchBucketError : GoErr → Option Bool
  | .plain _ => some false
  | .aws c _ => some (decide (c = "NoSuchBucket"))
  | .batch _ _ errs =>
    if errs.length > 1 then some false
    else
      match errs with
      | [] => none
      | some o :: _ => isNoSuchBucketError o
      | none :: _ => some false

/-- `isAccessDeniedException`: an `awserr.Error` whose code is
`AccessDenied`. -/
def isAccessDeniedException (e : GoErr) : Bool :=
  match e.awsCode with
  | some c => decide (c = "AccessDenied")
  | none => false

/-- `handleDeleteError`: a no-such-bucket error is swallowed (`some none`),
any other error is returned unchanged (`some (some e)`); `none` is the
propagated panic of `isNoSuchBucketError`. -/
def handleDeleteError (e : GoErr) : Option (Option GoErr) :=
  match isNoSuchBucketError e with
  | none => none
  | some true => some none
  | some false => some (some e)

/-- `buildBucketDetails`: only the name, region, ARN and FIPS endpoint are
populated (the `attributes` argument of the Go function is ignored by its
body); the remaining fields keep their zero values. -/
def buildBucketDetails (bucketName region partition : String) : BucketDetails :=
  { BucketName := bucketName
    Region := region
    ARN := "arn:" ++ partition ++ ":s3:::" ++ bucketName
    FIPSEndpoint := "s3-fips." ++ region ++ ".amazonaws.com" }

/-- `Describe`, parameterised by the result of the `GetBucketLocation`
backend call (`.ok none` models a nil `LocationConstraint` pointer).  A
nil location is replaced by `us-east-1`; a call failure is flattened when
it is an `awserr.Error`. -/
def Describe (locResp : Except GoErr (Option String)) (bucketName partition : String) :
    Except GoErr BucketDetails :=
  match locResp with
  | .error e => .error (flattenAwsError e)
  | .ok locOpt =>
    match locOpt with
    | none => .ok (buildBucketDetails bucketName "us-east-1" partition)
    | some region => .ok (buildBucketDetails bucketName region partition)

/-- `checkIsPublicAccessBlockDeleted`, as a function of the probe's error:
a `NoSuchPublicAccessBlockConfiguration`-coded `awserr.Error` means the
block is confirmed deleted; any other `awserr.Error` is a hard failure; a
nil error — or a non-`awserr` error, whose type assertion fails — yields
(not deleted, nil). -/
def checkIsPublicAccessBlockDeleted (resp : Option GoErr) : Bool × Option GoErr :=
  match resp with
  | none => (false, none)
  | some e =>
    match e.awsCode with
    | none => (false, none)
    | some c =>
      if c = "NoSuchPublicAccessBlockConfiguration" then (true, none) else (false, some e)

/-- The `for !isDeleted && retries < maxRetries` poll loop of
`checkDeletePublicAccessBlock`, with the loop guard `retries < maxRetries`
carried as the countdown `remaining = maxRetries - retries` (so the Go
loop with `maxRetries = 10` is `publicAccessBlockPoll probe isDeleted 0 10`).
Each iteration increments `retries`, sleeps one second, and probes again
(the probe of the iteration entered at counter `retries` is attempt
`retries + 1` of the response stream, the initial probe being attempt 0);
a hard probe failure is returned, while exhaustion and confirmation both
return nil. -/
def publicAccessBlockPoll (probe : Nat → Option GoErr) :
    Bool → Nat → Nat → Option GoErr × List CallEvent
  | _, _, 0 => (none, [])
  | true, _, _ + 1 => (none, [])
  | false, retries, remaining + 1 =>
    let step := checkIsPublicAccessBlockDeleted (probe (retries + 1))
    match step.2 with
    | some e => (some e, [.sleep, .getPublicAccessBlock])
    | none =>
      let rest := publicAccessBlockPoll probe step.1 (retries + 1) remaining
      (rest.1, .sleep :: .getPublicAccessBlock :: rest.2)

/-- `checkDeletePublicAccessBlock`.  `parse` stands for the external
`encoding/json` unmarshalling of the policy document.  An empty policy is
a no-op; a parse failure or a document with more than one statement is a
hard error; the public-access block is deleted only when some statement
matches `{Effect: "Allow", Principal: "*", Action: ["s3:GetObject"]}`
(`slices.ContainsFunc`, with order-sensitive `slices.Equal` on `Action`),
after which the deletion is confirmed by polling at most
`maxRetries = 10` further probes. -/
def checkDeletePublicAccessBlock (client : S3ClientModel)
    (parse : String → Except GoErr bucketPolicy)
    (bucketDetails : BucketDetails) : Option GoErr × List CallEvent :=
  if bucketDetails.Policy = "" then (none, [])
  else
    match parse bucketDetails.Policy with
    | .error e => (some e, [])
    | .ok policy =>
      if policy.Statement.length > 1 then
        (some (.plain ("expected 1 policy statement, got " ++ toString policy.Statement.length)), [])
      else
        if policy.Statement.any fun statement =>
            statement.Effect = "Allow" ∧ statement.Principal = "*" ∧
              statement.Action = ["s3:GetObject"] then
          match client.deletePublicAccessBlock with
          | some e => (some e, [.deletePublicAccessBlock])
          | none =>
            let first := checkIsPublicAccessBlockDeleted (client.getPublicAccessBlock 0)
            match first.2 with
            | some e => (some e, [.deletePublicAccessBlock, .getPublicAccessBlock])
            | none =>
              let rest := publicAccessBlockPoll client.getPublicAccessBlock first.1 0 10
              (rest.1, .deletePublicAccessBlock :: .getPublicAccessBlock :: rest.2)
        else (none, [])

/-- Modelled from the spec: the rendered form of a `text/template` policy
template whose only placeholders reference `BucketName` (§4.4 step 3 of
the spec; the template engine itself is Go standard library, outside the
sources under verification).  A parsed template is a sequence of literal
text segments and bucket-name placeholders, and execution emits them in
order, substituting the context's `BucketName` for each placeholder. -/
inductive TemplatePart where
  | lit (s : String)
  | placeholderBucketName
deriving Repr, DecidableEq

/-- Modelled from the spec: executing a parsed policy template against a
`BucketDetails` context. -/
def executeTemplate (t : List TemplatePart) (d : BucketDetails) : String :=
  match t with
  | [] => ""
  | .lit s :: rest => s ++ executeTemplate rest d
  | .placeholderBucketName :: rest => d.BucketName ++ executeTemplate rest d

/-- The template that interleaves `n + 1` literal segments with `n`
bucket-name placeholders: every occurrence of the placeholder sits between
two of the given literal segments. -/
def interleaveTemplate : List String → List TemplatePart
  | [] => []
  | [s] => [.lit s]
  | s :: t :: rest => .lit s :: .placeholderBucketName :: interleaveTemplate (t :: rest)

/-- The `for err != nil && retries < maxRetries` retry loop of
`putBucketPolicyWithRetries`, entered with `err` the result of attempt
`retries` of the response stream, and with the loop guard
`retries < maxRetries` carried as the countdown
`remaining = maxRetries - retries` (so the Go loop with `maxRetries = 10`
is `putBucketPolicyLoop call policy err0 0 10`).  Each iteration
increments `retries`, aborts immediately on a non-`AccessDenied` error,
and otherwise re-issues the identical call; after the loop the last error
(nil or not) is returned. -/
def putBucketPolicyLoop (call : Nat → String → Option GoErr) (policy : String) :
    Option GoErr → Nat → Nat → Option GoErr × List CallEvent
  | err, _, 0 => (err, [])
  | none, _, _ + 1 => (none, [])
  | some e, retries, remaining + 1 =>
    if isAccessDeniedException e then
      let nextErr := call (retries + 1) policy
      let rest := putBucketPolicyLoop call policy nextErr (retries + 1) remaining
      (rest.1, .putBucketPolicy policy :: rest.2)
    else (some e, [])

/-- `putBucketPolicyWithRetries`.  `tmplParse` stands for the external
`text/template` parser.  An empty policy is a no-op; the local
`bucketDetails` copy gets `BucketName` stamped before rendering; a parse
failure is a hard error; the rendered document is then applied with at
most `maxRetries = 10` further attempts after the initial call. -/
def putBucketPolicyWithRetries (client : S3ClientModel)
    (tmplParse : String → Except GoErr (List TemplatePart))
    (bucketDetails : BucketDetails) (bucketName : String) : Option GoErr × List CallEvent :=
  if bucketDetails.Policy.length = 0 then (none, [])
  else
    let details := { bucketDetails with BucketName := bucketName }
    match tmplParse details.Policy with
    | .error e => (some e, [])
    | .ok parts =>
      let policy := executeTemplate parts details
      let err0 := client.putBucketPolicy 0 policy
      let rest := putBucketPolicyLoop client.putBucketPolicy policy err0 0 10
      (rest.1, .putBucketPolicy policy :: rest.2)

/-- `Modify` is unimplemented in the source: it returns nil and issues no
backend call. -/
def Modify (bucketName : String) (bucketDetails : BucketDetails) :
    Option GoErr × List CallEvent :=
  (none, [])

/-- `Create`: create the bucket (failure flattened), apply the tag set
(failure returned raw), apply the encryption configuration when
`Encryption` is non-empty (`encParse` standing for the external
`encoding/json` unmarshalling; apply failure flattened), then run the
public-access-block reconciliation and the policy application; on success
the creation call's location (empty string for a nil pointer, as
`aws.StringValue`) is returned. -/
def Create (client : S3ClientModel)
    (parse : String → Except GoErr bucketPolicy)
    (encParse : String → Except GoErr Unit)
    (tmplParse : String → Except GoErr (List TemplatePart))
    (bucketName : String) (bucketDetails : BucketDetails) :
    Except GoErr String × List CallEvent :=
  match client.createBucket with
  | .error e => (.error (flattenAwsError e), [.createBucket])
  | .ok loc =>
    match client.putBucketTagging with
    | some e => (.error e, [.createBucket, .putBucketTagging])
    | none =>
      let encStep : Option GoErr × List CallEvent :=
        if bucketDetails.Encryption.length > 0 then
          match encParse bucketDetails.Encryption with
          | .error e => (some e, [])
          | .ok _ =>
            match client.putBucketEncryption with
            | some e => (some (flattenAwsError e), [.putBucketEncryption])
            | none => (none, [.putBucketEncryption])
        else (none, [])
      match encStep with
      | (some e, evs) => (.error e, [.createBucket, .putBucketTagging] ++ evs)
      | (none, evs) =>
        match checkDeletePublicAccessBlock client parse bucketDetails with
        | (some e, evs2) => (.error e, [.createBucket, .putBucketTagging] ++ evs ++ evs2)
        | (none, evs2) =>
          match putBucketPolicyWithRetries client tmplParse bucketDetails bucketName with
          | (some e, evs3) =>
            (.error e, [.createBucket, .putBucketTagging] ++ evs ++ evs2 ++ evs3)
          | (none, evs3) =>
            (.ok (loc.getD ""), [.createBucket, .putBucketTagging] ++ evs ++ evs2 ++ evs3)

/-- `deleteBucketContents`: the batch object deletion, with a
no-such-bucket failure (possibly wrapped) swallowed by
`handleDeleteError`. -/
def deleteBucketContents (client : S3ClientModel) : GoOutcome (Option GoErr) :=
  match client.batchDeleteObjects with
  | none => .ret none
  | some e =>
    match handleDeleteError e with
    | none => .panicked
    | some none => .ret none
    | some (some e2) => .ret (some e2)

/-- `Delete`: optionally empty the bucket first (aborting on a genuine
content-deletion failure), then delete the bucket, with a no-such-bucket
failure of either step treated as success. -/
def Delete (client : S3ClientModel) (bucketName : String) (deleteObjects : Bool) :
    GoOutcome (Option GoErr) × List CallEvent :=
  let contents : GoOutcome (Option GoErr) × List CallEvent :=
    if deleteObjects then (deleteBucketContents client, [.batchDeleteObjects])
    else (.ret none, [])
  match contents with
  | (.panicked, evs) => (.panicked, evs)
  | (.ret (some e), evs) => (.ret (some e), evs)
  | (.ret none, evs) =>
    match client.deleteBucket with
    | none => (.ret none, evs ++ [.deleteBucket])
    | some e =>
      match handleDeleteError e with
      | none => (.panicked, evs ++ [.deleteBucket])
      | some none => (.ret none, evs ++ [.deleteBucket])
      | some (some e2) => (.ret (some e2), evs ++ [.deleteBucket])

/-- Number of `PutBucketPolicy` calls in a trace. -/
def countPutBucketPolicy (evs : List CallEvent) : Nat :=
  evs.countP fun e =>
    match e with
    | .putBucketPolicy _ => true
    | _ => false

/-- Number of `GetPublicAccessBlock` probe calls in a trace. -/
def countGetPublicAccessBlock (evs : List CallEvent) : Nat :=
  evs.count .getPublicAccessBlock

/-- Number of `DeletePublicAccessBlock` calls in a trace. -/
def countDeletePublicAccessBlock (evs : List CallEvent) : Nat :=
  evs.count .deletePublicAccessBlock

/-- Number of one-second sleeps in a trace. -/
def countSleep (evs : List CallEvent) : Nat :=
  evs.count .sleep

/-- Modelled from the spec: the document the spec's round-trip sentence
expects — every occurrence of the bucket-name placeholder replaced by the
bucket name, every other character of the template unchanged — for a
template made of `n + 1` literal segments separated by `n` placeholder
occurrences. -/
def substitutedDocument (name : String) : List String → String
  | [] => ""
  | [s] => s
  | s :: t :: rest => s ++ name ++ substitutedDocument name (t :: rest)

/-! ### Helper lemmas about the two retry loops -/

theorem putBucketPolicyLoop_count_eq_length (call : Nat → String → Option GoErr)
    (policy : String) (err : Option GoErr) (retries remaining : Nat) :
    countPutBucketPolicy (putBucketPolicyLoop call policy err retries remaining).2 =
      (putBucketPolicyLoop call policy err retries remaining).2.length := by
  induction remaining generalizing err retries with
  | zero => cases err <;> simp [putBucketPolicyLoop, countPutBucketPolicy]
  | succ n ih =>
    cases err with
    | none => simp [putBucketPolicyLoop, countPutBucketPolicy]
    | some e =>
      by_cases h : isAccessDeniedException e
      · simp only [putBucketPolicyLoop, h, if_true]
        simpa [countPutBucketPolicy] using ih (call (retries + 1) policy) (retries + 1)
      · simp [putBucketPolicyLoop, h, countPutBucketPolicy]

theorem putBucketPolicyLoop_events_eq (call : Nat → String → Option GoErr)
    (policy : String) (err : Option GoErr) (retries remaining : Nat) :
    ∀ ev ∈ (putBucketPolicyLoop call policy err retries remaining).2,
      ev = .putBucketPolicy policy := by
  induction remaining generalizing err retries with
  | zero => cases err <;> simp [putBucketPolicyLoop]
  | succ n ih =>
    cases err with
    | none => simp [putBucketPolicyLoop]
    | some e =>
      by_cases h : isAccessDeniedException e
      · simp only [putBucketPolicyLoop, h, if_true]
        intro ev hev
        rcases List.mem_cons.mp hev with h2 | h2
        · exact h2
        · exact ih (call (retries + 1) policy) (retries + 1) ev h2
      · simp [putBucketPolicyLoop, h]

theorem putBucketPolicyLoop_length_le (call : Nat → String → Option GoErr)
    (policy : String) (err : Option GoErr) (retries remaining : Nat) :
    (putBucketPolicyLoop call policy err retries remaining).2.length ≤ remaining := by
  induction remaining generalizing err retries with
  | zero => cases err <;> simp [putBucketPolicyLoop]
  | succ n ih =>
    cases err with
    | none => simp [putBucketPolicyLoop]
    | some e =>
      by_cases h : isAccessDeniedException e
      · simp only [putBucketPolicyLoop, h, if_true, List.length_cons]
        have := ih (call (retries + 1) policy) (retries + 1)
        omega
      · simp [putBucketPolicyLoop, h]

theorem putBucketPolicyLoop_all_denied (call : Nat → String → Option GoErr)
    (policy : String) (retries remaining : Nat)
    (h : ∀ i, retries ≤ i → i ≤ retries + remaining →
      ∃ e, call i policy = some e ∧ isAccessDeniedException e = true) :
    (putBucketPolicyLoop call policy (call retries policy) retries remaining).1 =
      call (retries + remaining) policy ∧
    (putBucketPolicyLoop call policy (call retries policy) retries remaining).2.length =
      remaining := by
  induction remaining generalizing retries with
  | zero => cases hr : call retries policy <;> simp [putBucketPolicyLoop, hr]
  | succ n ih =>
    obtain ⟨e, he, had⟩ := h retries (Nat.le_refl _) (Nat.le_add_right _ _)
    have ih2 := ih (retries + 1) (fun i h1 h2 => h i (by omega) (by omega))
    rw [he]
    simp only [putBucketPolicyLoop, had, if_true, List.length_cons]
    constructor
    · rw [ih2.1]; congr 1; omega
    · rw [ih2.2]

theorem putBucketPolicyLoop_stop_on_other_error (call : Nat → String → Option GoErr)
    (policy : String) (retries remaining k : Nat) (e : GoErr)
    (hk : call k policy = some e) (hnad : isAccessDeniedException e = false)
    (hle : retries ≤ k) :
    (putBucketPolicyLoop call policy (call retries policy) retries remaining).2.length ≤
      k - retries ∧
    ((putBucketPolicyLoop call policy (call retries policy) retries remaining).2.length =
        k - retries →
      (putBucketPolicyLoop call policy (call retries policy) retries remaining).1 = some e) := by
  induction remaining generalizing retries with
  | zero =>
    cases hr : call retries policy with
    | none =>
      refine ⟨by simp [putBucketPolicyLoop], fun hlen => ?_⟩
      simp only [putBucketPolicyLoop, List.length_nil] at hlen ⊢
      rcases Nat.eq_or_lt_of_le hle with heq | hlt
      · rw [heq] at hr; rw [hr] at hk; exact absurd hk (by simp)
      · omega
    | some e0 =>
      refine ⟨by simp [putBucketPolicyLoop], fun hlen => ?_⟩
      simp only [putBucketPolicyLoop, List.length_nil] at hlen ⊢
      rcases Nat.eq_or_lt_of_le hle with heq | hlt
      · rw [heq] at hr; rw [hr] at hk
        exact hk ▸ rfl
      · omega
  | succ n ih =>
    cases hr : call retries policy with
    | none =>
      refine ⟨by simp [putBucketPolicyLoop], fun hlen => ?_⟩
      simp only [putBucketPolicyLoop, List.length_nil] at hlen ⊢
      rcases Nat.eq_or_lt_of_le hle with heq | hlt
      · rw [heq] at hr; rw [hr] at hk; exact absurd hk (by simp)
      · omega
    | some e0 =>
      rcases Nat.eq_or_lt_of_le hle with heq | hlt
      · subst heq
        rw [hr] at hk
        have he0 : e0 = e := by injection hk
        subst he0
        simp [putBucketPolicyLoop, hnad]
      · by_cases had : isAccessDeniedException e0
        · have ihs := ih (retries + 1) (by omega)
          simp only [putBucketPolicyLoop, had, if_true, List.length_cons]
          refine ⟨by omega, fun hlen => ?_⟩
          exact ihs.2 (by omega)
        · simp only [putBucketPolicyLoop, had, if_false, Bool.false_eq_true,
            List.length_nil]
          exact ⟨by omega, fun hlen => by omega⟩

theorem publicAccessBlockPoll_sleep_eq (probe : Nat → Option GoErr) (isDeleted : Bool)
    (retries remaining : Nat) :
    countSleep (publicAccessBlockPoll probe isDeleted retries remaining).2 =
      countGetPublicAccessBlock (publicAccessBlockPoll probe isDeleted retries remaining).2 := by
  induction remaining generalizing isDeleted retries with
  | zero => cases isDeleted <;> simp [publicAccessBlockPoll, countSleep, countGetPublicAccessBlock]
  | succ n ih =>
    cases isDeleted with
    | true => simp [publicAccessBlockPoll, countSleep, countGetPublicAccessBlock]
    | false =>
      rcases hs : (checkIsPublicAccessBlockDeleted (probe (retries + 1))).2 with _ | e
      · simp only [publicAccessBlockPoll, hs]
        simpa [countSleep, countGetPublicAccessBlock] using
          ih (checkIsPublicAccessBlockDeleted (probe (retries + 1))).1 (retries + 1)
      · simp [publicAccessBlockPoll, hs, countSleep, countGetPublicAccessBlock]

theorem publicAccessBlockPoll_count_le (probe : Nat → Option GoErr) (isDeleted : Bool)
    (retries remaining : Nat) :
    countGetPublicAccessBlock (publicAccessBlockPoll probe isDeleted retries remaining).2 ≤
      remaining := by
  induction remaining generalizing isDeleted retries with
  | zero => cases isDeleted <;> simp [publicAccessBlockPoll, countGetPublicAccessBlock]
  | succ n ih =>
    cases isDeleted with
    | true => simp [publicAccessBlockPoll, countGetPublicAccessBlock]
    | false =>
      rcases hs : (checkIsPublicAccessBlockDeleted (probe (retries + 1))).2 with _ | e
      · simp only [publicAccessBlockPoll, hs]
        have := ih (checkIsPublicAccessBlockDeleted (probe (retries + 1))).1 (retries + 1)
        simp only [countGetPublicAccessBlock, List.count_cons] at this ⊢
        simp_all
      · simp [publicAccessBlockPoll, hs, countGetPublicAccessBlock]

theorem publicAccessBlockPoll_no_delete_events (probe : Nat → Option GoErr) (isDeleted : Bool)
    (retries remaining : Nat) :
    countDeletePublicAccessBlock (publicAccessBlockPoll probe isDeleted retries remaining).2 =
      0 := by
  induction remaining generalizing isDeleted retries with
  | zero =>
    cases isDeleted <;> simp [publicAccessBlockPoll, countDeletePublicAccessBlock]
  | succ n ih =>
    cases isDeleted with
    | true => simp [publicAccessBlockPoll, countDeletePublicAccessBlock]
    | false =>
      rcases hs : (checkIsPublicAccessBlockDeleted (probe (retries + 1))).2 with _ | e
      · simp only [publicAccessBlockPoll, hs]
        have := ih (checkIsPublicAccessBlockDeleted (probe (retries + 1))).1 (retries + 1)
        simp_all [countDeletePublicAccessBlock]
      · simp [publicAccessBlockPoll, hs, countDeletePublicAccessBlock]

theorem publicAccessBlockPoll_all_unconfirmed (probe : Nat → Option GoErr)
    (retries remaining : Nat)
    (h : ∀ i, retries < i → i ≤ retries + remaining → probe i = none) :
    (publicAccessBlockPoll probe false retries remaining).1 = none ∧
    countGetPublicAccessBlock (publicAccessBlockPoll probe false retries remaining).2 =
      remaining ∧
    countSleep (publicAccessBlockPoll probe false retries remaining).2 = remaining := by
  induction remaining generalizing retries with
  | zero => simp [publicAccessBlockPoll, countGetPublicAccessBlock, countSleep]
  | succ n ih =>
    have hp : probe (retries + 1) = none := h (retries + 1) (by omega) (by omega)
    have ihs := ih (retries + 1) (fun i h1 h2 => h i (by omega) (by omega))
    simp only [publicAccessBlockPoll, hp, checkIsPublicAccessBlockDeleted]
    refine ⟨ihs.1, ?_, ?_⟩
    · simp only [countGetPublicAccessBlock, List.count_cons]
      have := ihs.2.1
      simp only [countGetPublicAccessBlock] at this
      simp [this]
    · simp only [countSleep, List.count_cons]
      have := ihs.2.2
      simp only [countSleep] at this
      simp [this]

theorem executeTemplate_interleave (segs : List String) (d : BucketDetails) :
    executeTemplate (interleaveTemplate segs) d = substitutedDocument d.BucketName segs := by
  induction segs with
  | nil => rfl
  | cons s rest ih =>
    cases rest with
    | nil => simp [interleaveTemplate, executeTemplate, substitutedDocument]
    | cons t rest2 =>
      simp only [interleaveTemplate, executeTemplate, substitutedDocument]
      rw [ih]
      simp [String.append_assoc]

/-! ### Claim theorems -/

/-- C5: when the location lookup succeeds, `Describe` returns a
`BucketDetails` whose ARN is `arn:{partition}:s3:::{bucketName}` and whose
FIPS endpoint is `s3-fips.{region}.amazonaws.com` for the resolved region,
with tags, encryption and policy left unpopulated. -/
theorem describe_arn_fips (v : Option String) (bucketName partition : String) :
    ∃ bd, Describe (.ok v) bucketName partition = .ok bd ∧
      bd.ARN = "arn:" ++ partition ++ ":s3:::" ++ bucketName ∧
      bd.FIPSEndpoint = "s3-fips." ++ bd.Region ++ ".amazonaws.com" ∧
      bd.Tags = [] ∧ bd.Encryption = "" ∧ bd.Policy = "" := by
  cases v with
  | none => exact ⟨_, rfl, rfl, rfl, rfl, rfl, rfl⟩
  | some region => exact ⟨_, rfl, rfl, rfl, rfl, rfl, rfl⟩

/-- C6 counterexample: a successful location lookup reporting an *empty*
(non-null) location string is not resolved to `us-east-1`: the returned
region is the empty string, so the claim's "null or empty" is too
strong. -/
theorem describe_empty_location_counterexample :
    Describe (.ok (some "")) "bucket" "aws" = .ok (buildBucketDetails "bucket" "" "aws") ∧
    (buildBucketDetails "bucket" "" "aws").Region = "" ∧
    (buildBucketDetails "bucket" "" "aws").Region ≠ "us-east-1" :=
  ⟨rfl, rfl, by decide⟩

/-- C6 amended: when the location lookup succeeds but reports a *null*
location, `Describe` resolves the region to the literal `us-east-1` (and
derives the FIPS endpoint from it); an empty-string location is kept
as-is. -/
theorem describe_nil_location_default_region (bucketName partition : String) :
    Describe (.ok none) bucketName partition =
      .ok (buildBucketDetails bucketName "us-east-1" partition) ∧
    (buildBucketDetails bucketName "us-east-1" partition).Region = "us-east-1" ∧
    (buildBucketDetails bucketName "us-east-1" partition).FIPSEndpoint =
      "s3-fips.us-east-1.amazonaws.com" :=
  ⟨rfl, rfl, rfl⟩

/-- C9: `Modify` returns nil and issues no backend call, for every bucket
name and every `BucketDetails` value. -/
theorem modify_no_op (bucketName : String) (bucketDetails : BucketDetails) :
    Modify bucketName bucketDetails = (none, []) := rfl

theorem countPutBucketPolicy_cons_put (p : String) (evs : List CallEvent) :
    countPutBucketPolicy (CallEvent.putBucketPolicy p :: evs) =
      countPutBucketPolicy evs + 1 := by
  simp [countPutBucketPolicy]

theorem string_length_ne_zero (s : String) (h : s ≠ "") : s.length ≠ 0 := by
  intro h0
  apply h
  cases s with
  | mk data =>
    cases data with
    | nil => rfl
    | cons a as => simp [String.length] at h0

/-- C4: `Delete` with object deletion returns nil when the backend reports
the bucket absent — a `NoSuchBucket`-coded error from the bulk object
deletion or the bucket deletion, directly or wrapped in an aggregate error
with exactly one underlying `NoSuchBucket` cause, is treated as success;
an aggregate error with more than one underlying cause is returned as a
genuine failure. -/
theorem delete_no_such_bucket_idempotent (client : S3ClientModel) (bucketName : String) :
    ((client.batchDeleteObjects = none ∨
        (∃ m, client.batchDeleteObjects = some (.aws "NoSuchBucket" m)) ∨
        (∃ c m m2, client.batchDeleteObjects =
          some (.batch c m [some (.aws "NoSuchBucket" m2)]))) →
      (client.deleteBucket = none ∨
        (∃ m, client.deleteBucket = some (.aws "NoSuchBucket" m)) ∨
        (∃ c m m2, client.deleteBucket =
          some (.batch c m [some (.aws "NoSuchBucket" m2)]))) →
      Delete client bucketName true = (.ret none, [.batchDeleteObjects, .deleteBucket])) ∧
    (∀ c m e1 e2 rest, client.batchDeleteObjects = some (.batch c m (e1 :: e2 :: rest)) →
      Delete client bucketName true =
        (.ret (some (.batch c m (e1 :: e2 :: rest))), [.batchDeleteObjects])) := by
  constructor
  · intro hb hd
    have hcontents : deleteBucketContents client = .ret none := by
      rcases hb with h | ⟨m, h⟩ | ⟨c, m, m2, h⟩ <;>
        simp [deleteBucketContents, h, handleDeleteError, isNoSuchBucketError]
    rcases hd with h | ⟨m, h⟩ | ⟨c, m, m2, h⟩ <;>
      simp [Delete, hcontents, h, handleDeleteError, isNoSuchBucketError]
  · intro c m e1 e2 rest hb
    have hns : isNoSuchBucketError (.batch c m (e1 :: e2 :: rest)) = some false := by
      rw [isNoSuchBucketError.eq_def]
      simp only [List.length_cons]
      rw [if_pos (by omega)]
    simp [Delete, deleteBucketContents, hb, handleDeleteError, hns]

/-- C4 witness: one concrete client where both teardown calls fail with
(wrapped or direct) `NoSuchBucket` and `Delete` still succeeds, and one
where the bulk deletion fails with a two-cause aggregate and `Delete`
fails. -/
theorem delete_no_such_bucket_idempotent_witness :
    Delete { batchDeleteObjects := some (.batch "BatchedErrors" "b" [some (.aws "NoSuchBucket" "x")]),
             deleteBucket := some (.aws "NoSuchBucket" "y") } "b" true =
      (.ret none, [.batchDeleteObjects, .deleteBucket]) ∧
    Delete { batchDeleteObjects := some (.batch "BatchedErrors" "b"
               [some (.aws "NoSuchBucket" "x"), some (.aws "AccessDenied" "y")]) } "b" true =
      (.ret (some (.batch "BatchedErrors" "b"
        [some (.aws "NoSuchBucket" "x"), some (.aws "AccessDenied" "y")])),
       [.batchDeleteObjects]) :=
  ⟨(delete_no_such_bucket_idempotent _ "b").1
      (Or.inr (Or.inr ⟨"BatchedErrors", "b", "x", rfl⟩)) (Or.inr (Or.inl ⟨"y", rfl⟩)),
    (delete_no_such_bucket_idempotent _ "b").2 "BatchedErrors" "b"
      (some (.aws "NoSuchBucket" "x")) (some (.aws "AccessDenied" "y")) [] rfl⟩

/-- C7: a single-statement policy matching `{Allow, "*", ["s3:GetObject"]}`
exactly triggers exactly one public-access-block deletion call; a single
statement differing in effect, principal or action triggers zero such
calls and the reconciler returns success. -/
theorem checkDeletePublicAccessBlock_match (client : S3ClientModel)
    (parse : String → Except GoErr bucketPolicy) (details : BucketDetails)
    (policy : bucketPolicy) (st : bucketPolicyStatement)
    (hne : details.Policy ≠ "")
    (hparse : parse details.Policy = .ok policy)
    (hstmt : policy.Statement = [st]) :
    (st.Effect = "Allow" → st.Principal = "*" → st.Action = ["s3:GetObject"] →
      countDeletePublicAccessBlock (checkDeletePublicAccessBlock client parse details).2 = 1) ∧
    (¬(st.Effect = "Allow" ∧ st.Principal = "*" ∧ st.Action = ["s3:GetObject"]) →
      checkDeletePublicAccessBlock client parse details = (none, [])) := by
  constructor
  · intro he hp ha
    simp only [checkDeletePublicAccessBlock, if_neg hne, hparse, hstmt]
    rw [if_neg (by simp), if_pos (by simp [he, hp, ha])]
    cases hd : client.deletePublicAccessBlock with
    | some e => simp [countDeletePublicAccessBlock]
    | none =>
      rcases hp0 : (checkIsPublicAccessBlockDeleted (client.getPublicAccessBlock 0)).2 with _ | e
      · simp only [hp0, countDeletePublicAccessBlock, List.count_cons]
        have := publicAccessBlockPoll_no_delete_events client.getPublicAccessBlock
          (checkIsPublicAccessBlockDeleted (client.getPublicAccessBlock 0)).1 0 10
        simp only [countDeletePublicAccessBlock] at this
        simp [this]
      · simp [hp0, countDeletePublicAccessBlock]
  · intro hm
    simp only [checkDeletePublicAccessBlock, if_neg hne, hparse, hstmt]
    rw [if_neg (by simp), if_neg (by simp [hm])]

/-- C7 witness: the matching statement issues exactly one deletion call;
changing the action to `s3:PutObject` issues none and succeeds. -/
theorem checkDeletePublicAccessBlock_match_witness :
    countDeletePublicAccessBlock (checkDeletePublicAccessBlock ({} : S3ClientModel)
      (fun _ => .ok ⟨"2012-10-17", [⟨"Allow", "*", ["s3:GetObject"], []⟩]⟩)
      { Policy := "P" }).2 = 1 ∧
    checkDeletePublicAccessBlock ({} : S3ClientModel)
      (fun _ => .ok ⟨"2012-10-17", [⟨"Allow", "*", ["s3:PutObject"], []⟩]⟩)
      { Policy := "P" } = (none, []) :=
  ⟨(checkDeletePublicAccessBlock_match ({} : S3ClientModel) _ _ _ _ (by decide) rfl rfl).1
      rfl rfl rfl,
    (checkDeletePublicAccessBlock_match ({} : S3ClientModel) _ _ _ _ (by decide) rfl rfl).2
      (by decide)⟩

/-- C10: the public-read match ignores the statement's `Resource` list —
a single `{Allow, "*", ["s3:GetObject"]}` statement triggers the deletion
call whatever its resources are — and a policy whose statement array is
empty issues no deletion call and returns success. -/
theorem checkDeletePublicAccessBlock_resource_ignored (client : S3ClientModel)
    (parse : String → Except GoErr bucketPolicy) (details : BucketDetails)
    (ver : String) (resource : List String)
    (hne : details.Policy ≠ "") :
    (parse details.Policy = .ok ⟨ver, [⟨"Allow", "*", ["s3:GetObject"], resource⟩]⟩ →
      countDeletePublicAccessBlock (checkDeletePublicAccessBlock client parse details).2 = 1 ∧
      (checkDeletePublicAccessBlock client parse details).2.head? =
        some .deletePublicAccessBlock) ∧
    (parse details.Policy = .ok ⟨ver, []⟩ →
      checkDeletePublicAccessBlock client parse details = (none, [])) := by
  constructor
  · intro hparse
    simp only [checkDeletePublicAccessBlock, if_neg hne, hparse]
    rw [if_neg (by simp), if_pos (by simp)]
    cases hd : client.deletePublicAccessBlock with
    | some e => simp [countDeletePublicAccessBlock]
    | none =>
      rcases hp0 : (checkIsPublicAccessBlockDeleted (client.getPublicAccessBlock 0)).2 with _ | e
      · simp only [hp0, countDeletePublicAccessBlock, List.count_cons]
        have := publicAccessBlockPoll_no_delete_events client.getPublicAccessBlock
          (checkIsPublicAccessBlockDeleted (client.getPublicAccessBlock 0)).1 0 10
        simp only [countDeletePublicAccessBlock] at this
        simp [this]
      · simp [hp0, countDeletePublicAccessBlock]
  · intro hparse
    simp only [checkDeletePublicAccessBlock, if_neg hne, hparse]
    rw [if_neg (by simp), if_neg (by simp)]

/-- C10 witness: the deletion call fires with a non-trivial resource list,
and the empty-statement policy is a successful no-op. -/
theorem checkDeletePublicAccessBlock_resource_ignored_witness :
    countDeletePublicAccessBlock (checkDeletePublicAccessBlock ({} : S3ClientModel)
      (fun _ => .ok ⟨"2012-10-17",
        [⟨"Allow", "*", ["s3:GetObject"], ["arn:aws:s3:::b/*"]⟩]⟩)
      { Policy := "P" }).2 = 1 ∧
    checkDeletePublicAccessBlock ({} : S3ClientModel)
      (fun _ => .ok ⟨"2012-10-17", []⟩) { Policy := "P" } = (none, []) :=
  ⟨((checkDeletePublicAccessBlock_resource_ignored ({} : S3ClientModel) _ _ "2012-10-17"
      ["arn:aws:s3:::b/*"] (by decide)).1 rfl).1,
    (checkDeletePublicAccessBlock_resource_ignored ({} : S3ClientModel) _
      { Policy := "P" } "2012-10-17" [] (by decide)).2 rfl⟩

/-- C1 counterexample: with a policy parsing to two statements, `Create`
does return an error, but only after the bucket-creation and tagging calls
have already been issued to the backend — the trace is not empty, so the
claim's "no backend operation is performed" is false. -/
theorem create_fail_fast_counterexample :
    (Create ({} : S3ClientModel)
        (fun _ => .ok ⟨"v", [⟨"Allow", "*", ["s3:GetObject"], []⟩,
          ⟨"Deny", "*", ["s3:PutObject"], []⟩]⟩)
        (fun _ => .ok ()) (fun _ => .ok []) "b" { Policy := "P" }).1 =
      .error (.plain "expected 1 policy statement, got 2") ∧
    (Create ({} : S3ClientModel)
        (fun _ => .ok ⟨"v", [⟨"Allow", "*", ["s3:GetObject"], []⟩,
          ⟨"Deny", "*", ["s3:PutObject"], []⟩]⟩)
        (fun _ => .ok ()) (fun _ => .ok []) "b" { Policy := "P" }).2 =
      [.createBucket, .putBucketTagging] ∧
    CallEvent.createBucket ∈ (Create ({} : S3ClientModel)
        (fun _ => .ok ⟨"v", [⟨"Allow", "*", ["s3:GetObject"], []⟩,
          ⟨"Deny", "*", ["s3:PutObject"], []⟩]⟩)
        (fun _ => .ok ()) (fun _ => .ok []) "b" { Policy := "P" }).2 :=
  ⟨rfl, rfl, by decide⟩

/-- C1 amended: `Create` with a policy parsing to more than one statement
returns the "expected 1 policy statement" error and issues no
`DeletePublicAccessBlock` and no `PutBucketPolicy` call — but the
bucket-creation and tagging calls (and the encryption call, when
encryption is configured) have already been issued when the policy is
rejected: the failure is *after* bucket creation, not before it. -/
theorem create_multi_statement_policy (client : S3ClientModel)
    (parse : String → Except GoErr bucketPolicy) (encParse : String → Except GoErr Unit)
    (tmplParse : String → Except GoErr (List TemplatePart))
    (bucketName : String) (details : BucketDetails) (policy : bucketPolicy)
    (loc : Option String)
    (hcb : client.createBucket = .ok loc)
    (htag : client.putBucketTagging = none)
    (hencp : details.Encryption ≠ "" → encParse details.Encryption = .ok ())
    (hencc : details.Encryption ≠ "" → client.putBucketEncryption = none)
    (hne : details.Policy ≠ "")
    (hparse : parse details.Policy = .ok policy)
    (hlen : policy.Statement.length > 1) :
    Create client parse encParse tmplParse bucketName details =
      (.error (.plain ("expected 1 policy statement, got " ++
        toString policy.Statement.length)),
       if details.Encryption = "" then [.createBucket, .putBucketTagging]
       else [.createBucket, .putBucketTagging, .putBucketEncryption]) := by
  have hchk : checkDeletePublicAccessBlock client parse details =
      (some (.plain ("expected 1 policy statement, got " ++
        toString policy.Statement.length)), []) := by
    simp only [checkDeletePublicAccessBlock, if_neg hne, hparse]
    rw [if_pos hlen]
  by_cases hE : details.Encryption = ""
  · rw [if_pos hE]
    simp [Create, hcb, htag, hE, hchk]
  · rw [if_neg hE]
    have hlenE : details.Encryption.length > 0 :=
      Nat.pos_of_ne_zero (string_length_ne_zero details.Encryption hE)
    simp [Create, hcb, htag, hlenE, hencp hE, hencc hE, hchk]

/-- C1 amended witness: a non-empty encryption configuration is applied —
the encryption call is issued — before the two-statement policy is
rejected. -/
theorem create_multi_statement_policy_witness :
    Create ({} : S3ClientModel)
        (fun _ => .ok ⟨"v", [⟨"Allow", "*", ["s3:GetObject"], []⟩,
          ⟨"Deny", "*", ["s3:PutObject"], []⟩]⟩)
        (fun _ => .ok ()) (fun _ => .ok []) "bkt"
        { Encryption := "E", Policy := "Q" } =
      (.error (.plain "expected 1 policy statement, got 2"),
       [.createBucket, .putBucketTagging, .putBucketEncryption]) := by
  exact create_multi_statement_policy ({} : S3ClientModel)
    (fun _ => .ok ⟨"v", [⟨"Allow", "*", ["s3:GetObject"], []⟩,
      ⟨"Deny", "*", ["s3:PutObject"], []⟩]⟩)
    (fun _ => .ok ()) (fun _ => .ok []) "bkt" { Encryption := "E", Policy := "Q" }
    ⟨"v", [⟨"Allow", "*", ["s3:GetObject"], []⟩, ⟨"Deny", "*", ["s3:PutObject"], []⟩]⟩
    none rfl rfl (fun _ => rfl) (fun _ => rfl) (by decide) rfl (by decide)

/-- C2 counterexample: with every attempt failing as `AccessDenied`, the
policy application issues the `PutBucketPolicy` call 11 times — one
initial call plus 10 retries — so the claim's "at most 10 times in total"
is false; the last error (that of attempt 10) is returned. -/
theorem putBucketPolicy_call_bound_counterexample :
    countPutBucketPolicy (putBucketPolicyWithRetries
      { putBucketPolicy := fun i _ => some (.aws "AccessDenied" (toString i)) }
      (fun _ => .ok [.lit "doc"]) { Policy := "P" } "b").2 = 11 ∧
    (putBucketPolicyWithRetries
      { putBucketPolicy := fun i _ => some (.aws "AccessDenied" (toString i)) }
      (fun _ => .ok [.lit "doc"]) { Policy := "P" } "b").1 =
      some (.aws "AccessDenied" "10") :=
  ⟨rfl, rfl⟩

/-- C2 amended: for a non-empty policy that renders successfully, the
policy application issues the `PutBucketPolicy` call at most 11 times in
total (the initial call plus at most 10 retries); it re-issues the call
only while the previous call failed with an `AccessDenied`-classified
error — an attempt failing with any other error class is the last one and
its error is returned — and if every attempt fails with `AccessDenied`
the 11th attempt's error (not success) is returned to the caller. -/
theorem putBucketPolicyWithRetries_retry_policy (client : S3ClientModel)
    (g : Nat → Option GoErr) (tmplParse : String → Except GoErr (List TemplatePart))
    (details : BucketDetails) (bucketName : String)
    (hcall : ∀ i p, client.putBucketPolicy i p = g i) :
    countPutBucketPolicy
      (putBucketPolicyWithRetries client tmplParse details bucketName).2 ≤ 11 ∧
    (details.Policy ≠ "" → ∀ parts, tmplParse details.Policy = .ok parts →
      (∀ i, i ≤ 10 → ∃ e, g i = some e ∧ isAccessDeniedException e = true) →
      (putBucketPolicyWithRetries client tmplParse details bucketName).1 = g 10 ∧
      countPutBucketPolicy
        (putBucketPolicyWithRetries client tmplParse details bucketName).2 = 11) ∧
    (∀ k e, g k = some e → isAccessDeniedException e = false →
      countPutBucketPolicy
        (putBucketPolicyWithRetries client tmplParse details bucketName).2 ≤ k + 1 ∧
      (countPutBucketPolicy
          (putBucketPolicyWithRetries client tmplParse details bucketName).2 = k + 1 →
        (putBucketPolicyWithRetries client tmplParse details bucketName).1 = some e)) := by
  by_cases hempty : details.Policy.length = 0
  · refine ⟨?_, ?_, ?_⟩
    · simp [putBucketPolicyWithRetries, hempty, countPutBucketPolicy]
    · intro hne parts hparts hg
      exact absurd hempty (string_length_ne_zero details.Policy hne)
    · intro k e hk hnad
      simp [putBucketPolicyWithRetries, hempty, countPutBucketPolicy]
  · rcases hparse : tmplParse details.Policy with e0 | parts0
    · refine ⟨?_, ?_, ?_⟩
      · simp [putBucketPolicyWithRetries, hempty, hparse, countPutBucketPolicy]
      · intro hne parts hparts hg
        exact Except.noConfusion hparts
      · intro k e hk hnad
        simp [putBucketPolicyWithRetries, hempty, hparse, countPutBucketPolicy]
    · set policy := executeTemplate parts0 { details with BucketName := bucketName } with hpol
      have hform : putBucketPolicyWithRetries client tmplParse details bucketName =
          ((putBucketPolicyLoop client.putBucketPolicy policy
              (client.putBucketPolicy 0 policy) 0 10).1,
            .putBucketPolicy policy ::
              (putBucketPolicyLoop client.putBucketPolicy policy
                (client.putBucketPolicy 0 policy) 0 10).2) := by
        simp [putBucketPolicyWithRetries, hempty, hparse]
      have h1 := putBucketPolicyLoop_count_eq_length client.putBucketPolicy policy
        (client.putBucketPolicy 0 policy) 0 10
      refine ⟨?_, ?_, ?_⟩
      · rw [hform]
        have h2 := putBucketPolicyLoop_length_le client.putBucketPolicy policy
          (client.putBucketPolicy 0 policy) 0 10
        rw [countPutBucketPolicy_cons_put]
        omega
      · intro hne parts hparts hg
        have hall := putBucketPolicyLoop_all_denied client.putBucketPolicy policy 0 10
          (fun i hi1 hi2 => by
            obtain ⟨e, he, had⟩ := hg i (by omega)
            exact ⟨e, by rw [hcall i policy, he], had⟩)
        rw [hform]
        constructor
        · rw [hall.1]
          exact hcall 10 policy
        · rw [countPutBucketPolicy_cons_put, h1, hall.2]
      · intro k e hk hnad
        have hstop := putBucketPolicyLoop_stop_on_other_error client.putBucketPolicy policy
          0 10 k e (by rw [hcall k policy]; exact hk) hnad (Nat.zero_le k)
        rw [hform]
        rw [countPutBucketPolicy_cons_put]
        constructor
        · omega
        · intro hlen
          exact hstop.2 (by omega)

/-- C2 amended witness: the always-AccessDenied backend exercises the
11-call bound and the returned final error. -/
theorem putBucketPolicyWithRetries_retry_policy_witness :
    (putBucketPolicyWithRetries
      { putBucketPolicy := fun i _ => some (.aws "AccessDenied" (toString i)) }
      (fun _ => .ok [.lit "doc"]) { Policy := "P" } "b").1 =
      some (.aws "AccessDenied" (toString 10)) ∧
    countPutBucketPolicy (putBucketPolicyWithRetries
      { putBucketPolicy := fun i _ => some (.aws "AccessDenied" (toString i)) }
      (fun _ => .ok [.lit "doc"]) { Policy := "P" } "b").2 = 11 :=
  (putBucketPolicyWithRetries_retry_policy
      { putBucketPolicy := fun i _ => some (.aws "AccessDenied" (toString i)) }
      (fun i => some (.aws "AccessDenied" (toString i)))
      (fun _ => .ok [.lit "doc"]) { Policy := "P" } "b" (fun _ _ => rfl)).2.1
    (by decide) [.lit "doc"] rfl
    (fun i _ => ⟨.aws "AccessDenied" (toString i), rfl, rfl⟩)

/-- C3 counterexample: with the deletion call succeeding and every
`GetPublicAccessBlock` probe returning a successful ("not yet confirmed")
response, the confirmation poll calls the probe 11 times — one initial
probe plus 10 retries — so the claim's "at most 10 times" is false; the
procedure still returns nil. -/
theorem accessBlockPoll_probe_bound_counterexample :
    countGetPublicAccessBlock (checkDeletePublicAccessBlock ({} : S3ClientModel)
      (fun _ => .ok ⟨"2012-10-17", [⟨"Allow", "*", ["s3:GetObject"], []⟩]⟩)
      { Policy := "P" }).2 = 11 ∧
    (checkDeletePublicAccessBlock ({} : S3ClientModel)
      (fun _ => .ok ⟨"2012-10-17", [⟨"Allow", "*", ["s3:GetObject"], []⟩]⟩)
      { Policy := "P" }).1 = none :=
  ⟨rfl, rfl⟩

/-- C3 amended: after the public-access-block deletion call succeeds, the
confirmation poll calls the `GetPublicAccessBlock` probe at most 11 times
(one initial probe plus at most 10 retries); every probe call except the
first is preceded by a fixed 1-second sleep (the sleep count is one less
than the probe count); and if all probes report "not yet confirmed" the
procedure still terminates after the 11th probe and returns success (nil
error), not a failure. -/
theorem checkDeletePublicAccessBlock_poll_bounds (client : S3ClientModel)
    (parse : String → Except GoErr bucketPolicy) (details : BucketDetails)
    (policy : bucketPolicy) (st : bucketPolicyStatement)
    (hne : details.Policy ≠ "")
    (hparse : parse details.Policy = .ok policy)
    (hstmt : policy.Statement = [st])
    (heff : st.Effect = "Allow") (hpr : st.Principal = "*")
    (hact : st.Action = ["s3:GetObject"])
    (hdel : client.deletePublicAccessBlock = none) :
    countGetPublicAccessBlock (checkDeletePublicAccessBlock client parse details).2 ≤ 11 ∧
    countGetPublicAccessBlock (checkDeletePublicAccessBlock client parse details).2 =
      countSleep (checkDeletePublicAccessBlock client parse details).2 + 1 ∧
    ((∀ i, i ≤ 10 → client.getPublicAccessBlock i = none) →
      (checkDeletePublicAccessBlock client parse details).1 = none ∧
      countGetPublicAccessBlock (checkDeletePublicAccessBlock client parse details).2 = 11 ∧
      countSleep (checkDeletePublicAccessBlock client parse details).2 = 10) := by
  have hform : checkDeletePublicAccessBlock client parse details =
      (match (checkIsPublicAccessBlockDeleted (client.getPublicAccessBlock 0)).2 with
        | some e => (some e, [.deletePublicAccessBlock, .getPublicAccessBlock])
        | none =>
          ((publicAccessBlockPoll client.getPublicAccessBlock
              (checkIsPublicAccessBlockDeleted (client.getPublicAccessBlock 0)).1 0 10).1,
            .deletePublicAccessBlock :: .getPublicAccessBlock ::
              (publicAccessBlockPoll client.getPublicAccessBlock
                (checkIsPublicAccessBlockDeleted (client.getPublicAccessBlock 0)).1 0 10).2)) := by
    simp only [checkDeletePublicAccessBlock, if_neg hne, hparse, hstmt]
    rw [if_neg (by simp), if_pos (by simp [heff, hpr, hact]), hdel]
  rcases hp0 : (checkIsPublicAccessBlockDeleted (client.getPublicAccessBlock 0)).2 with _ | e
  · rw [hp0] at hform
    have hle := publicAccessBlockPoll_count_le client.getPublicAccessBlock
      (checkIsPublicAccessBlockDeleted (client.getPublicAccessBlock 0)).1 0 10
    have hsl := publicAccessBlockPoll_sleep_eq client.getPublicAccessBlock
      (checkIsPublicAccessBlockDeleted (client.getPublicAccessBlock 0)).1 0 10
    rw [hform]
    simp only [countGetPublicAccessBlock, countSleep, List.count_cons, List.count_nil] at hle hsl ⊢
    refine ⟨by simp; omega, by simp [hsl], ?_⟩
    intro hall
    have hfirst : checkIsPublicAccessBlockDeleted (client.getPublicAccessBlock 0) =
        (false, none) := by
      rw [hall 0 (by omega)]
      rfl
    have hmain := publicAccessBlockPoll_all_unconfirmed client.getPublicAccessBlock 0 10
      (fun i h1 h2 => hall i (by omega))
    rw [hfirst] at hp0 ⊢
    simp only [countGetPublicAccessBlock, countSleep] at hmain
    refine ⟨?_, ?_, ?_⟩
    · rw [hfirst] at hform
      exact hmain.1
    · rw [hfirst] at hform
      simp [hmain.2.1]
    · rw [hfirst] at hform
      simp [hmain.2.2]
  · rw [hp0] at hform
    rw [hform]
    refine ⟨by simp [countGetPublicAccessBlock], ?_, ?_⟩
    · simp [countGetPublicAccessBlock, countSleep]
    · intro hall
      have hfirst : checkIsPublicAccessBlockDeleted (client.getPublicAccessBlock 0) =
          (false, none) := by
        rw [hall 0 (by omega)]
        rfl
      rw [hfirst] at hp0
      exact Option.noConfusion hp0

/-- C3 amended witness: the always-unconfirmed backend exercises the
11-probe bound, the 10 sleeps, and the nil result. -/
theorem checkDeletePublicAccessBlock_poll_bounds_witness :
    (checkDeletePublicAccessBlock ({} : S3ClientModel)
      (fun _ => .ok ⟨"2012-10-17", [⟨"Allow", "*", ["s3:GetObject"], []⟩]⟩)
      { Policy := "P" }).1 = none ∧
    countGetPublicAccessBlock (checkDeletePublicAccessBlock ({} : S3ClientModel)
      (fun _ => .ok ⟨"2012-10-17", [⟨"Allow", "*", ["s3:GetObject"], []⟩]⟩)
      { Policy := "P" }).2 = 11 ∧
    countSleep (checkDeletePublicAccessBlock ({} : S3ClientModel)
      (fun _ => .ok ⟨"2012-10-17", [⟨"Allow", "*", ["s3:GetObject"], []⟩]⟩)
      { Policy := "P" }).2 = 10 :=
  (checkDeletePublicAccessBlock_poll_bounds ({} : S3ClientModel)
      (fun _ => .ok ⟨"2012-10-17", [⟨"Allow", "*", ["s3:GetObject"], []⟩]⟩)
      { Policy := "P" } ⟨"2012-10-17", [⟨"Allow", "*", ["s3:GetObject"], []⟩]⟩
      ⟨"Allow", "*", ["s3:GetObject"], []⟩ (by decide) rfl rfl rfl rfl rfl rfl).2.2
    (fun i _ => rfl)

/-- C8: rendering a policy template whose only placeholders reference
`BucketName` — modelled as literal segments interleaved with placeholder
occurrences — against the bucket name `my-bucket` substitutes the literal
string `my-bucket` for every placeholder occurrence and keeps every
literal segment unchanged, and `putBucketPolicyWithRetries` applies
exactly that rendered document in each of its `PutBucketPolicy` calls. -/
theorem renderedPolicy_substitutes_bucket_name (client : S3ClientModel)
    (tmplParse : String → Except GoErr (List TemplatePart))
    (details : BucketDetails) (segs : List String)
    (hne : details.Policy ≠ "")
    (hparse : tmplParse details.Policy = .ok (interleaveTemplate segs)) :
    (putBucketPolicyWithRetries client tmplParse details "my-bucket").2.head? =
      some (.putBucketPolicy (substitutedDocument "my-bucket" segs)) ∧
    ∀ ev ∈ (putBucketPolicyWithRetries client tmplParse details "my-bucket").2,
      ev = .putBucketPolicy (substitutedDocument "my-bucket" segs) := by
  have hempty : ¬details.Policy.length = 0 := string_length_ne_zero details.Policy hne
  have hrender : executeTemplate (interleaveTemplate segs)
      { details with BucketName := "my-bucket" } = substitutedDocument "my-bucket" segs := by
    rw [executeTemplate_interleave]
  have hform : putBucketPolicyWithRetries client tmplParse details "my-bucket" =
      ((putBucketPolicyLoop client.putBucketPolicy (substitutedDocument "my-bucket" segs)
          (client.putBucketPolicy 0 (substitutedDocument "my-bucket" segs)) 0 10).1,
        .putBucketPolicy (substitutedDocument "my-bucket" segs) ::
          (putBucketPolicyLoop client.putBucketPolicy (substitutedDocument "my-bucket" segs)
            (client.putBucketPolicy 0 (substitutedDocument "my-bucket" segs)) 0 10).2) := by
    simp [putBucketPolicyWithRetries, hempty, hparse, hrender]
  rw [hform]
  refine ⟨rfl, ?_⟩
  intro ev hev
  rcases List.mem_cons.mp hev with h | h
  · exact h
  · exact putBucketPolicyLoop_events_eq client.putBucketPolicy
      (substitutedDocument "my-bucket" segs) _ 0 10 ev h

/-- C8 witness: a three-segment, two-placeholder template renders with
both occurrences replaced by `my-bucket`. -/
theorem renderedPolicy_substitutes_bucket_name_witness :
    (putBucketPolicyWithRetries ({} : S3ClientModel)
      (fun _ => .ok (interleaveTemplate
        ["\x7b\"Resource\": \"arn:aws:s3:::", "/*\", \"Bucket\": \"", "\"\x7d"]))
      { Policy := "T" } "my-bucket").2.head? =
      some (.putBucketPolicy (substitutedDocument "my-bucket"
        ["\x7b\"Resource\": \"arn:aws:s3:::", "/*\", \"Bucket\": \"", "\"\x7d"])) :=
  (renderedPolicy_substitutes_bucket_name ({} : S3ClientModel)
    (fun _ => .ok (interleaveTemplate
      ["\x7b\"Resource\": \"arn:aws:s3:::", "/*\", \"Bucket\": \"", "\"\x7d"]))
    { Policy := "T" }
    ["\x7b\"Resource\": \"arn:aws:s3:::", "/*\", \"Bucket\": \"", "\"\x7d"]
    (by decide) rfl).1

end AwsS3
